import Mathlib

/-!
Shallow embedding of `src/shopify/theme_client.go` (package shopify) of the
themekit repository, together with theorems settling the frozen claims about
its response-interpretation and conflict-resolution behaviour.

The HTTP adapter is an injected collaborator; each operation model receives
the adapter's outcome(s) for the request(s) it issues as an explicit oracle
argument, and returns the Go result, the (possibly updated) client value and
the list of requests issued, in order.
-/

namespace ThemeKit

/-- Errors of the Go package: the sentinel error values declared at the top of
theme_client.go, plus `newError s` for an `errors.New(s)` call on an
aggregated message sentence, and `transport s` for an error surfaced verbatim
from the injected http adapter or from `body.Close()`.  Distinct constructors
model distinct Go error values. -/
inductive GoErr where
  | criticalFile
  | notPartOfTheme
  | malformedResponse
  | zipPathRequired
  | infoWithoutThemeID
  | publishWithoutThemeID
  | themeNotFound
  | shopDomainNotFound
  | missingAssetName
  | themeNameRequired
  | newError (msg : String)
  | transport (msg : String)
  deriving DecidableEq

/-- Theme (theme_client.go:46-52). -/
structure Theme where
  id : Int
  name : String
  role : String
  previewable : Bool
  processing : Bool
  deriving DecidableEq

/-- Shop (theme_client.go:55-61). -/
structure Shop where
  id : Int
  name : String
  city : String
  country : String
  desc : String
  deriving DecidableEq

/-- Asset as consumed by theme_client.go.  The full struct is declared in
another file of the repository (not under src/); the only field this file's
code ever reads is `Key`, so the model carries just the key. -/
structure Asset where
  key : String
  deriving DecidableEq

/-- themeResponse (theme_client.go:63-66).  The `errors` JSON object is a Go
map from attribute to messages; the model keeps it as an association list in
response order (JSON object keys are unique). -/
structure ThemeRespBody where
  theme : Theme
  errors : List (String × List String)
  deriving DecidableEq

/-- assetResponse (theme_client.go:72-75). -/
structure AssetRespBody where
  asset : Asset
  errors : List (String × List String)
  deriving DecidableEq

/-- assetsResponse (theme_client.go:77-79). -/
structure AssetsRespBody where
  assets : List Asset
  deriving DecidableEq

/-- themesResponse (theme_client.go:68-70). -/
structure ThemesRespBody where
  themes : List Theme
  deriving DecidableEq

def zeroTheme : Theme := ⟨0, "", "", false, false⟩

def zeroShop : Shop := ⟨0, "", "", "", ""⟩

def zeroAsset : Asset := ⟨""⟩

def zeroThemeResp : ThemeRespBody := ⟨zeroTheme, []⟩

def zeroAssetResp : AssetRespBody := ⟨zeroAsset, []⟩

/-- Outcome of the IO and JSON steps `unmarshalResponse` performs on one
response body: whether `ioutil.ReadAll` fails, whether `body.Close()` fails
(and with which error), whether `json.Unmarshal` into the target shape
succeeds (and with which decoded value), and whether `json.Unmarshal` into
the flat `reqErr` shape succeeds (and with which `Errors` string).  The two
decodes run against the same bytes, so all four combinations of success can
occur (for example a flat-error body also decodes into a target shape that
has no conflicting field). -/
structure BodyOutcome (β : Type) where
  readErr : Bool
  closeErr : Option GoErr
  mainDecode : Option β
  flatDecode : Option String
  deriving DecidableEq

/-- Response body whose read and close succeed and which decodes into the
target shape as `v`, with the flat-error decode failing. -/
def okBody {β : Type} (v : β) : BodyOutcome β := ⟨false, none, some v, none⟩

/-- unmarshalResponse (theme_client.go:360-379).  `zero` is the value the
caller's target variable holds when the main decode does not populate it (the
Go zero value). -/
def unmarshalResponse {β : Type} (zero : β) (b : BodyOutcome β) : Except GoErr β :=
  if b.readErr then .error .malformedResponse
  else
    match b.closeErr with
    | some e => .error e
    | none =>
      if b.mainDecode.isNone && b.flatDecode.isNone then .error .malformedResponse
      else
        match b.flatDecode with
        | some s => if s.length > 0 then .error (.newError s) else .ok (b.mainDecode.getD zero)
        | none => .ok (b.mainDecode.getD zero)

/-- toMessages (theme_client.go:381-389).  Go iterates the error map in
unspecified order; the model fixes the response order of the association
list.  No claim depends on the attribute order. -/
def toMessages (a : List (String × List String)) : List String :=
  a.flatMap fun p => p.2.map fun e => p.1 ++ " " ++ e

/-- toSentence (theme_client.go:391-401).  The fourth branch is Go's
`strings.Join(a[:len(a)-1], ", ") + ", and " + a[len(a)-1]`, reached only
when the list has at least three entries. -/
def toSentence (a : List String) : String :=
  match a with
  | [] => ""
  | [x] => x
  | [x, y] => x ++ " and " ++ y
  | _ => String.intercalate ", " (a.take (a.length - 1)) ++ ", and " ++ a.getD (a.length - 1) ""

/-- Does the char list start with the pattern `p`? -/
def startsWithList : List Char → List Char → Bool
  | _, [] => true
  | [], _ :: _ => false
  | a :: as, b :: bs => a == b && startsWithList as bs

/-- Occurrence of `pat` as a contiguous run inside the second list. -/
def containsList (pat : List Char) : List Char → Bool
  | [] => startsWithList [] pat
  | c :: t => startsWithList (c :: t) pat || containsList pat t

/-- strings.Contains as used at theme_client.go:303.  Go checks byte-level
containment of UTF-8 encodings; for valid UTF-8 that coincides with
char-sequence containment (UTF-8 is self-synchronising), so the model works
on chars. -/
def stringsContains (s pat : String) : Bool :=
  containsList pat.data s.data

/-- Go compares strings byte-wise; on valid UTF-8 that order coincides with
the lexicographic order on the character sequences, which this function
computes. -/
def charLtB : List Char → List Char → Bool
  | [], [] => false
  | [], _ :: _ => true
  | _ :: _, [] => false
  | a :: as, b :: bs => if a < b then true else if b < a then false else charLtB as bs

/-- Go's `a < b` on strings. -/
def goStrLt (a b : String) : Bool := charLtB a.data b.data

/-- Go's `a <= b` on strings (the complement of the reversed strict order). -/
def goStrLe (a b : String) : Bool := !goStrLt b a

/-- Insertion step of the model's sort. -/
def orderedInsertB {α : Type} (le : α → α → Bool) (a : α) : List α → List α
  | [] => [a]
  | b :: l => if le a b then a :: b :: l else b :: orderedInsertB le a l

/-- Structural insertion sort used to model Go's sorting: it produces the
unique arrangement of the input multiset that is sorted ascending by a total
order, which is exactly what sort.Slice and sort.Strings produce. -/
def insertionSortB {α : Type} (le : α → α → Bool) : List α → List α
  | [] => []
  | a :: l => orderedInsertB le a (insertionSortB le l)

/-- UTF-8 byte values of one character, as Go stores strings. -/
def utf8Bytes (c : Char) : List Nat :=
  let n := c.toNat
  if n < 128 then [n]
  else if n < 2048 then [192 + n / 64, 128 + n % 64]
  else if n < 65536 then [224 + n / 4096, 128 + n / 64 % 64, 128 + n % 64]
  else [240 + n / 262144, 128 + n / 4096 % 64, 128 + n / 64 % 64, 128 + n % 64]

/-- Upper-case hex digit for a value below 16, as Go's "%X" formatting. -/
def hexDigit (n : Nat) : Char :=
  if n < 10 then Char.ofNat (48 + n) else Char.ofNat (55 + n)

/-- Escaping of one byte by Go's url.QueryEscape: space becomes +,
alphanumerics and -._~ stay, every other byte becomes %XX. -/
def escapeByte (b : Nat) : String :=
  if b = 32 then "+"
  else if (65 ≤ b ∧ b ≤ 90) ∨ (97 ≤ b ∧ b ≤ 122) ∨ (48 ≤ b ∧ b ≤ 57) ∨
      b = 45 ∨ b = 95 ∨ b = 46 ∨ b = 126 then
    String.singleton (Char.ofNat b)
  else "%" ++ String.singleton (hexDigit (b / 16)) ++ String.singleton (hexDigit (b % 16))

/-- url.QueryEscape over the UTF-8 bytes of the string. -/
def queryEscape (s : String) : String :=
  String.join ((s.data.flatMap utf8Bytes).map escapeByte)

/-- url.Values.Encode as used by Client.assetPath (theme_client.go:349-354):
keys sorted ascending, each pair rendered escaped-key=escaped-value, joined
with ampersands.  Every call site of this file sets at most one value per
key. -/
def encodeQuery (q : List (String × String)) : String :=
  String.intercalate "&"
    ((insertionSortB (fun a b => goStrLe a.1 b.1) q).map fun p =>
      queryEscape p.1 ++ "=" ++ queryEscape p.2)

/-- Client (theme_client.go:94-98).  The http adapter is supplied per call as
an oracle of adapter outcomes; `filterMatch` is the injected ignore predicate
(file.Filter.Match). -/
structure Client where
  themeID : String
  filterMatch : String → Bool

/-- Client.assetPath (theme_client.go:343-358). -/
def Client.assetPath (c : Client) (query : List (String × String)) : String :=
  let formatted :=
    if c.themeID ≠ "" then "/admin/themes/" ++ c.themeID ++ "/assets.json"
    else "/admin/assets.json"
  if query.length > 0 then formatted ++ "?" ++ encodeQuery query else formatted

/-- One http adapter interaction: either the adapter returned a non-nil error
(the `err != nil` branch of the caller), or a response with a status code and
a body whose read and decode outcomes are given. -/
inductive HttpResult (β : Type) where
  | fail (e : GoErr)
  | resp (status : Nat) (body : BodyOutcome β)

/-- One request issued to the http adapter. -/
inductive Call where
  | get (path : String)
  | post (path : String)
  | put (path : String)
  | delete (path : String)
  deriving DecidableEq

/-- Client.GetShop (theme_client.go:128-142). -/
def getShopGo (c : Client) (r : HttpResult Shop) : Except GoErr Shop × Client × List Call :=
  let calls := [Call.get "/meta.json"]
  match r with
  | .fail e => (.error e, c, calls)
  | .resp status body =>
    if status = 404 then (.error .shopDomainNotFound, c, calls)
    else
      match unmarshalResponse zeroShop body with
      | .error e => (.error e, c, calls)
      | .ok shop => (.ok shop, c, calls)

/-- Client.Themes (theme_client.go:145-157): no status-code branch and no
field-error branch; the decoded theme list is returned as is. -/
def themesGo (c : Client) (r : HttpResult ThemesRespBody) :
    Except GoErr (List Theme) × Client × List Call :=
  let calls := [Call.get "/admin/themes.json"]
  match r with
  | .fail e => (.error e, c, calls)
  | .resp _ body =>
    match unmarshalResponse ⟨[]⟩ body with
    | .error e => (.error e, c, calls)
    | .ok r2 => (.ok r2.themes, c, calls)

/-- Client.CreateNewTheme (theme_client.go:161-182).  On success the client's
themeID is set to fmt.Sprintf with the %d verb on r.Theme.ID, that is the
decimal representation `Int.repr` of the id. -/
def createNewThemeGo (c : Client) (name : String) (r : HttpResult ThemeRespBody) :
    Except GoErr Theme × Client × List Call :=
  if name = "" then (.error .themeNameRequired, c, [])
  else
    let calls := [Call.post "/admin/themes.json"]
    match r with
    | .fail e => (.error e, c, calls)
    | .resp _ body =>
      match unmarshalResponse zeroThemeResp body with
      | .error e => (.error e, c, calls)
      | .ok r2 =>
        if r2.errors.length > 0 then
          (.error (.newError (toSentence (toMessages r2.errors))), c, calls)
        else (.ok r2.theme, { c with themeID := Int.repr r2.theme.id }, calls)

/-- Client.GetInfo (theme_client.go:185-203).  Note there is no field-error
branch: the decoded theme is returned even when the body carried errors. -/
def getInfoGo (c : Client) (r : HttpResult ThemeRespBody) :
    Except GoErr Theme × Client × List Call :=
  if c.themeID = "" then (.error .infoWithoutThemeID, c, [])
  else
    let calls := [Call.get ("/admin/themes/" ++ c.themeID ++ ".json")]
    match r with
    | .fail e => (.error e, c, calls)
    | .resp status body =>
      if status = 404 then (.error .themeNotFound, c, calls)
      else
        match unmarshalResponse zeroThemeResp body with
        | .error e => (.error e, c, calls)
        | .ok r2 => (.ok r2.theme, c, calls)

/-- Client.PublishTheme (theme_client.go:206-231). -/
def publishThemeGo (c : Client) (r : HttpResult ThemeRespBody) :
    Except GoErr Unit × Client × List Call :=
  if c.themeID = "" then (.error .publishWithoutThemeID, c, [])
  else
    let calls := [Call.put ("/admin/themes/" ++ c.themeID ++ ".json")]
    match r with
    | .fail e => (.error e, c, calls)
    | .resp status body =>
      if status = 404 then (.error .themeNotFound, c, calls)
      else
        match unmarshalResponse zeroThemeResp body with
        | .error e => (.error e, c, calls)
        | .ok r2 =>
          if r2.errors.length > 0 then
            (.error (.newError (toSentence (toMessages r2.errors))), c, calls)
          else (.ok (), c, calls)

/-- Sorting step of Client.GetAllAssets (theme_client.go:251): sort.Slice on
the fetched assets ordered by Key.  sort.Slice is an unstable sort, but only
the keys are read afterwards, and every arrangement of the same multiset of
strings that is sorted ascending is the same list of keys, so the model sorts
the projected keys. -/
def goSortKeys (keys : List String) : List String :=
  insertionSortB goStrLe keys

/-- Filtering loop of Client.GetAllAssets (theme_client.go:252-256): a key is
kept when the ignore filter does not match it and it is not immediately
followed, in the sorted fetched list, by itself plus ".liquid".  Both
conditions are evaluated against the full sorted list, not against the list
remaining after the ignore filter. -/
def shadowScan (m : String → Bool) : List String → List String
  | [] => []
  | [k] => if !m k then [k] else []
  | k :: k2 :: rest =>
    if !m k && !(k2 == k ++ ".liquid") then k :: shadowScan m (k2 :: rest)
    else shadowScan m (k2 :: rest)

/-- Client.GetAllAssets (theme_client.go:237-259). -/
def getAllAssetsGo (c : Client) (r : HttpResult AssetsRespBody) :
    Except GoErr (List String) × Client × List Call :=
  let calls := [Call.get (c.assetPath [("fields", "key")])]
  match r with
  | .fail e => (.error e, c, calls)
  | .resp status body =>
    if status = 404 then (.error .themeNotFound, c, calls)
    else
      match unmarshalResponse ⟨[]⟩ body with
      | .error e => (.error e, c, calls)
      | .ok r2 =>
        (.ok (shadowScan c.filterMatch (goSortKeys (r2.assets.map Asset.key))), c, calls)

/-- Client.GetAsset (theme_client.go:262-276). -/
def getAssetGo (c : Client) (filename : String) (r : HttpResult AssetRespBody) :
    Except GoErr Asset × Client × List Call :=
  let calls := [Call.get (c.assetPath [("asset[key]", filename)])]
  match r with
  | .fail e => (.error e, c, calls)
  | .resp status body =>
    if status = 404 then (.error .notPartOfTheme, c, calls)
    else
      match unmarshalResponse zeroAssetResp body with
      | .error e => (.error e, c, calls)
      | .ok r2 => (.ok r2.asset, c, calls)

/-- Client.DeleteAsset (theme_client.go:319-341).  The Go code performs no
local check on asset.Key: the Delete request is issued unconditionally, and
the missing-asset-name error only arises from a 406 status. -/
def deleteAssetGo (c : Client) (asset : Asset) (r : HttpResult AssetRespBody) :
    Except GoErr Unit × Client × List Call :=
  let calls := [Call.delete (c.assetPath [("asset[key]", asset.key)])]
  match r with
  | .fail e => (.error e, c, calls)
  | .resp status body =>
    if status = 403 then (.error .criticalFile, c, calls)
    else if status = 404 then (.error .notPartOfTheme, c, calls)
    else if status = 406 then (.error .missingAssetName, c, calls)
    else
      match unmarshalResponse zeroAssetResp body with
      | .error e => (.error e, c, calls)
      | .ok r2 =>
        if r2.errors.length > 0 then
          (.error (.newError (toSentence (toMessages r2.errors))), c, calls)
        else (.ok (), c, calls)

/-- Result of Client.UpdateAsset.  `panic` models the Go runtime panic of an
out-of-range index; `outOfResponses` is a model artifact for an exhausted
response oracle (the Go adapter always produces a response, and every theorem
below supplies enough of them). -/
inductive UpdateResult where
  | ok
  | err (e : GoErr)
  | panic
  | outOfResponses
  deriving DecidableEq

/-- Client.UpdateAsset (theme_client.go:288-314).  `puts` supplies the adapter
outcome of each successive Put request; `dels` supplies the outcome of each
Delete issued for the generated shadow during the conflict branch, whose Go
result is discarded (line 304-305).  The recursive call of line 306 re-enters
with the remaining oracles.  The Go condition at line 303 indexes
`r.Errors["asset"][0]` after only checking that the key is present, so an
empty message list under "asset" panics when the status is 422. -/
def updateAssetGo (c : Client) (asset : Asset) :
    List (HttpResult AssetRespBody) → List (HttpResult AssetRespBody) →
    UpdateResult × Client × List Call
  | [], _ => (.outOfResponses, c, [])
  | p :: prest, dels =>
    let calls := [Call.put (c.assetPath [])]
    match p with
    | .fail e => (.err e, c, calls)
    | .resp status body =>
      if status = 404 then (.err .notPartOfTheme, c, calls)
      else
        match unmarshalResponse zeroAssetResp body with
        | .error e => (.err e, c, calls)
        | .ok r2 =>
          if r2.errors.length > 0 then
            match r2.errors.lookup "asset" with
            | some msgs =>
              if status = 422 then
                match msgs.head? with
                | none => (.panic, c, calls)
                | some m0 =>
                  if stringsContains m0 "Cannot overwrite generated asset" then
                    let d := deleteAssetGo c ⟨asset.key ++ ".liquid"⟩
                      (dels.headD (.fail (.transport "")))
                    let second := updateAssetGo c asset prest dels.tail
                    (second.1, second.2.1, calls ++ d.2.2 ++ second.2.2)
                  else (.err (.newError (toSentence msgs)), c, calls)
              else (.err (.newError (toSentence msgs)), c, calls)
            | none => (.err (.newError (toSentence (toMessages r2.errors))), c, calls)
          else (.ok, c, calls)

/-- Client.CreateAsset (theme_client.go:281-283): delegates to UpdateAsset. -/
def createAssetGo (c : Client) (asset : Asset) (puts dels : List (HttpResult AssetRespBody)) :
    UpdateResult × Client × List Call :=
  updateAssetGo c asset puts dels

/-! Concrete fixtures used by witnesses and counterexamples. -/

/-- Unbound client whose ignore filter matches nothing. -/
def cNone : Client := ⟨"", fun _ => false⟩

/-- Bound client (themeID "7") whose ignore filter matches nothing. -/
def cBound : Client := ⟨"7", fun _ => false⟩

/-- Unbound client whose ignore filter matches exactly "a.js.liquid". -/
def cIgnoreLiquid : Client := ⟨"", fun k => k == "a.js.liquid"⟩

/-- Decoded 422 body carrying the overwrite-conflict field error. -/
def conflictBody : BodyOutcome AssetRespBody :=
  okBody ⟨zeroAsset, [("asset", ["Cannot overwrite generated asset a.js.liquid"])]⟩

/-- Put outcome triggering the conflict branch of UpdateAsset. -/
def pConflict : HttpResult AssetRespBody := .resp 422 conflictBody

/-- Put outcome of a plain successful update. -/
def pOk : HttpResult AssetRespBody := .resp 200 (okBody zeroAssetResp)

/-- Successful theme-creation response for a theme with id 42. -/
def themeRespFoo : HttpResult ThemeRespBody :=
  .resp 200 (okBody ⟨⟨42, "Foo", "unpublished", false, false⟩, []⟩)

def isDeleteCall : Call → Bool
  | .delete _ => true
  | _ => false

def isPutCall : Call → Bool
  | .put _ => true
  | _ => false

/-! Claim C8: sentence rendering. -/

/-- C8 (confirmed): toSentence returns the empty string for zero items, the
item for one, "A and B" for two, and for three or more items all but the last
joined with ", " followed by ", and " and the last item. -/
theorem C8_toSentence_cases :
    toSentence [] = ""
    ∧ (∀ a, toSentence [a] = a)
    ∧ (∀ a b, toSentence [a, b] = a ++ " and " ++ b)
    ∧ ∀ x y z rest, toSentence (x :: y :: z :: rest) =
        String.intercalate ", " (x :: y :: z :: rest).dropLast
          ++ ", and " ++ (x :: y :: z :: rest).getLastD "" := by
  refine ⟨rfl, fun a => rfl, fun a b => rfl, fun x y z rest => ?_⟩
  show String.intercalate ", " ((x :: y :: z :: rest).take ((x :: y :: z :: rest).length - 1))
      ++ ", and " ++ (x :: y :: z :: rest).getD ((x :: y :: z :: rest).length - 1) "" = _
  rw [← List.dropLast_eq_take, List.getD_eq_getElem?_getD, ← List.getLast?_eq_getElem?,
    ← List.getLastD_eq_getLast?]

/-! Claim C5: the response decoder. -/

/-- Positivity of the byte length of a non-empty string (Go's `len(s) > 0`
test on a string is equivalent to it being non-empty). -/
theorem string_length_pos_of_ne {s : String} (h : s ≠ "") : 0 < s.length := by
  cases s with
  | mk data =>
    cases data with
    | nil => exact absurd rfl h
    | cons c cs => simp [String.length]

/-- C5 (corrected): for bodies whose Close step succeeds, unmarshalResponse
returns the malformed-response error exactly when the read fails or both
decodes fail; a successful flat decode with a non-empty string is returned as
the error regardless of the main decode; otherwise the decoded value (or the
zero value) is returned with no error.  When Close fails, its error is
returned verbatim before any decode is consulted, which the counterexample
below shows contradicts the claim as stated. -/
theorem C5_unmarshal_decoder {β : Type} (zero : β) (b : BodyOutcome β)
    (hclose : b.closeErr = none) :
    (unmarshalResponse zero b = .error .malformedResponse ↔
      b.readErr = true ∨ (b.mainDecode = none ∧ b.flatDecode = none))
    ∧ (∀ s, b.readErr = false → b.flatDecode = some s → s ≠ "" →
        unmarshalResponse zero b = .error (.newError s))
    ∧ (∀ v, b.readErr = false → b.mainDecode = some v →
        (∀ s, b.flatDecode = some s → s = "") → unmarshalResponse zero b = .ok v) := by
  obtain ⟨re, ce, md, fd⟩ := b
  cases ce with
  | some e => simp at hclose
  | none =>
    refine ⟨?_, ?_, ?_⟩
    · cases re with
      | true => simp [unmarshalResponse]
      | false =>
        cases md with
        | none =>
          cases fd with
          | none => simp [unmarshalResponse]
          | some s => by_cases hs : s.length > 0 <;> simp [unmarshalResponse, hs]
        | some v =>
          cases fd with
          | none => simp [unmarshalResponse]
          | some s => by_cases hs : s.length > 0 <;> simp [unmarshalResponse, hs]
    · intro s hre hfd hs
      have hre2 : re = false := by simpa using hre
      have hfd2 : fd = some s := by simpa using hfd
      subst hre2
      subst hfd2
      simp [unmarshalResponse, string_length_pos_of_ne hs]
    · intro v hre hmd hfd
      have hre2 : re = false := by simpa using hre
      have hmd2 : md = some v := by simpa using hmd
      subst hre2
      subst hmd2
      cases fd with
      | none => simp [unmarshalResponse]
      | some s =>
        have h0 : s = "" := hfd s (by simp)
        subst h0
        simp [unmarshalResponse, String.length]

/-- C5 witness: a body whose read fails decodes to the malformed-response
error, and a flat-error body returns its string as the error even though the
main decode failed. -/
theorem C5_witness :
    unmarshalResponse zeroThemeResp (⟨true, none, none, none⟩ : BodyOutcome ThemeRespBody) =
      .error .malformedResponse
    ∧ unmarshalResponse zeroThemeResp (⟨false, none, none, some "boom"⟩ : BodyOutcome ThemeRespBody) =
      .error (.newError "boom") :=
  ⟨(C5_unmarshal_decoder zeroThemeResp ⟨true, none, none, none⟩ rfl).1.mpr (Or.inl rfl),
   (C5_unmarshal_decoder zeroThemeResp ⟨false, none, none, some "boom"⟩ rfl).2.1 "boom" rfl rfl
     (by decide)⟩

/-- C5 counterexample: a body whose read succeeds, whose main decode succeeds
and whose flat decode fails should, per the claim, be returned as the decoded
value with no error; the code instead returns the Close error verbatim. -/
theorem C5_counterexample :
    unmarshalResponse zeroThemeResp
        (⟨false, some (.transport "stream reset"), some zeroThemeResp, none⟩ :
          BodyOutcome ThemeRespBody) =
      .error (.transport "stream reset")
    ∧ (⟨false, some (GoErr.transport "stream reset"), some zeroThemeResp, none⟩ :
        BodyOutcome ThemeRespBody).readErr = false
    ∧ (⟨false, some (GoErr.transport "stream reset"), some zeroThemeResp, none⟩ :
        BodyOutcome ThemeRespBody).mainDecode = some zeroThemeResp :=
  ⟨rfl, rfl, rfl⟩

/-! Claim C7: fail-fast of the theme-scoped calls on an unbound client. -/

/-- C7 (confirmed): with an empty themeID, GetInfo and PublishTheme return
their respective precondition errors, leave the client unchanged and issue no
request. -/
theorem C7_unbound_fail_fast (c : Client) (hc : c.themeID = "")
    (rg rp : HttpResult ThemeRespBody) :
    getInfoGo c rg = (.error .infoWithoutThemeID, c, [])
    ∧ publishThemeGo c rp = (.error .publishWithoutThemeID, c, []) := by
  constructor <;> simp [getInfoGo, publishThemeGo, hc]

/-- C7 witness at the concrete unbound client. -/
theorem C7_witness :
    getInfoGo cNone themeRespFoo = (.error .infoWithoutThemeID, cNone, [])
    ∧ publishThemeGo cNone themeRespFoo = (.error .publishWithoutThemeID, cNone, []) :=
  C7_unbound_fail_fast cNone rfl themeRespFoo themeRespFoo

/-! Claim C2: DeleteAsset and the empty key. -/

/-- DeleteAsset issues exactly one Delete request, whatever the adapter
outcome and whatever the key. -/
theorem deleteAssetGo_calls (c : Client) (asset : Asset) (r : HttpResult AssetRespBody) :
    (deleteAssetGo c asset r).2.2 = [Call.delete (c.assetPath [("asset[key]", asset.key)])] := by
  cases r with
  | fail e => rfl
  | resp status body =>
    simp only [deleteAssetGo]
    split
    · rfl
    · split
      · rfl
      · split
        · rfl
        · cases unmarshalResponse zeroAssetResp body with
          | error e => rfl
          | ok r2 =>
            simp only []
            split <;> rfl

/-- C2 (corrected): DeleteAsset never checks the key locally.  It issues
exactly one Delete request for every asset - the empty key included - and the
missing-asset-name error arises only from a 406 status of the response. -/
theorem C2_deleteAsset_always_requests (c : Client) (asset : Asset)
    (r : HttpResult AssetRespBody) :
    (deleteAssetGo c asset r).2.2 = [Call.delete (c.assetPath [("asset[key]", asset.key)])]
    ∧ (∀ body, r = .resp 406 body → (deleteAssetGo c asset r).1 = .error .missingAssetName) := by
  refine ⟨deleteAssetGo_calls c asset r, ?_⟩
  rintro body rfl
  rfl

/-- C2 witness: deleting the empty-keyed asset against a 406 response yields
the missing-asset-name error (after the request went out). -/
theorem C2_witness :
    (deleteAssetGo cNone ⟨""⟩ (.resp 406 (okBody zeroAssetResp))).1 =
      .error .missingAssetName :=
  (C2_deleteAsset_always_requests cNone ⟨""⟩ (.resp 406 (okBody zeroAssetResp))).2
    (okBody zeroAssetResp) rfl

/-- C2 counterexample: per the claim, an empty key must fail with the
missing-asset-name error before any request; the code instead issues the
Delete request and, on a 200 response, returns success. -/
theorem C2_counterexample :
    deleteAssetGo cNone ⟨""⟩ (.resp 200 (okBody zeroAssetResp)) =
      (.ok (), cNone, [Call.delete "/admin/assets.json?asset%5Bkey%5D="]) := rfl

/-! Claim C10: the out-of-range index in UpdateAsset's conflict test. -/

/-- C10 (code_bug): a 422 response whose decoded error map carries the key
"asset" with an empty message list drives the Go condition of line 303 into
`r.Errors["asset"][0]` on an empty slice, a runtime panic; the model returns
the panic marker.  The claim that this input is handled without a panic
describes the intent, not the code. -/
theorem C10_empty_asset_errors_panic :
    updateAssetGo cNone ⟨"a.js"⟩ [.resp 422 (okBody ⟨zeroAsset, [("asset", [])]⟩)] [] =
      (.panic, cNone, [Call.put "/admin/assets.json"]) := rfl

/-! Decimal representations are never empty (needed for claims C6 and C9). -/

theorem toDigitsCore_ne_nil (b : Nat) :
    ∀ (f n : Nat) (ds : List Char), ds ≠ [] → Nat.toDigitsCore b f n ds ≠ []
  | 0, _, _, h => by simpa [Nat.toDigitsCore] using h
  | f + 1, n, ds, h => by
    rw [Nat.toDigitsCore]
    split
    · simp
    · exact toDigitsCore_ne_nil b f (n / b) _ (by simp)

theorem nat_toDigits_ne_nil (b n : Nat) : Nat.toDigits b n ≠ [] := by
  rw [Nat.toDigits, Nat.toDigitsCore]
  split
  · simp
  · exact toDigitsCore_ne_nil b n (n / b) _ (by simp)

theorem nat_repr_ne_empty (n : Nat) : Nat.repr n ≠ "" := by
  intro h
  exact nat_toDigits_ne_nil 10 n (congrArg String.data h)

theorem int_repr_ne_empty (i : Int) : Int.repr i ≠ "" := by
  cases i with
  | ofNat n => exact nat_repr_ne_empty n
  | negSucc n =>
    intro h
    have hd := congrArg String.data h
    rw [Int.repr] at hd
    simp [String.data_append] at hd

/-! Claim C6: CreateNewTheme. -/

/-- On a bound client, GetInfo issues exactly one Get to the theme-scoped
endpoint of its themeID, whatever the adapter outcome. -/
theorem getInfoGo_calls (c : Client) (hc : ¬c.themeID = "") (rg : HttpResult ThemeRespBody) :
    (getInfoGo c rg).2.2 = [Call.get ("/admin/themes/" ++ c.themeID ++ ".json")] := by
  cases rg with
  | fail e => simp [getInfoGo, hc]
  | resp status body =>
    simp only [getInfoGo, if_neg hc]
    split
    · rfl
    · split <;> rfl

/-- C6 (confirmed): CreateNewTheme with an empty name returns the
name-required error, leaves the client unchanged and issues no request; on
every successful run the returned client's themeID is the decimal
representation of the created theme's id, and a subsequent GetInfo on that
client targets the new theme's endpoint. -/
theorem C6_createNewTheme_binds (c : Client) (r : HttpResult ThemeRespBody) :
    createNewThemeGo c "" r = (.error .themeNameRequired, c, [])
    ∧ ∀ (name : String) (t : Theme) (c2 : Client) (calls : List Call),
        createNewThemeGo c name r = (.ok t, c2, calls) →
          c2.themeID = Int.repr t.id
          ∧ calls = [Call.post "/admin/themes.json"]
          ∧ ∀ rg : HttpResult ThemeRespBody,
              (getInfoGo c2 rg).2.2 = [Call.get ("/admin/themes/" ++ c2.themeID ++ ".json")] := by
  constructor
  · simp [createNewThemeGo]
  · intro name t c2 calls h
    by_cases hname : name = ""
    · rw [hname] at h
      simp [createNewThemeGo] at h
    · rw [createNewThemeGo, if_neg hname] at h
      cases r with
      | fail e => simp at h
      | resp status body =>
        simp only [] at h
        cases hu : unmarshalResponse zeroThemeResp body with
        | error e => rw [hu] at h; simp at h
        | ok r2 =>
          rw [hu] at h
          by_cases herr : r2.errors.length > 0
          · simp [herr] at h
          · simp only [if_neg herr, Prod.mk.injEq, Except.ok.injEq] at h
            obtain ⟨ht, hc2, hcalls⟩ := h
            subst ht
            subst hc2
            refine ⟨rfl, hcalls.symm, fun rg => getInfoGo_calls _ ?_ rg⟩
            exact int_repr_ne_empty _

/-- C6 witness: the concrete successful creation of theme 42 binds the client
to themeID "42" and a subsequent GetInfo targets /admin/themes/42.json. -/
theorem C6_witness :
    (createNewThemeGo cNone "Foo" themeRespFoo).2.1.themeID = "42"
    ∧ (getInfoGo (createNewThemeGo cNone "Foo" themeRespFoo).2.1 themeRespFoo).2.2 =
      [Call.get "/admin/themes/42.json"] := by
  have h := (C6_createNewTheme_binds cNone themeRespFoo).2 "Foo"
    ⟨42, "Foo", "unpublished", false, false⟩ ⟨"42", cNone.filterMatch⟩
    [Call.post "/admin/themes.json"] rfl
  exact ⟨h.1, h.2.2 themeRespFoo⟩

/-! Claim C9: themeID is mutated only by CreateNewTheme and never cleared. -/

/-- UpdateAsset returns the client it was called on in every branch,
including the conflict-retry recursion. -/
theorem updateAssetGo_client (c : Client) (a : Asset) :
    ∀ (puts dels : List (HttpResult AssetRespBody)), (updateAssetGo c a puts dels).2.1 = c
  | [], _ => rfl
  | p :: prest, dels => by
    cases p with
    | fail e => rfl
    | resp status body =>
      simp only [updateAssetGo]
      split
      · rfl
      · split
        · rfl
        · split
          · split
            · split
              · split
                · rfl
                · split
                  · exact updateAssetGo_client c a prest dels.tail
                  · rfl
              · rfl
            · rfl
          · rfl

/-- C9 (confirmed): every operation except CreateNewTheme returns the client
unchanged (the Go methods take the client by value); CreateNewTheme changes
only the themeID field; and no operation takes a non-empty themeID back to
the empty string. -/
theorem C9_themeID_frame :
    (∀ c r, (getShopGo c r).2.1 = c)
    ∧ (∀ c r, (themesGo c r).2.1 = c)
    ∧ (∀ c r, (getInfoGo c r).2.1 = c)
    ∧ (∀ c r, (publishThemeGo c r).2.1 = c)
    ∧ (∀ c r, (getAllAssetsGo c r).2.1 = c)
    ∧ (∀ c f r, (getAssetGo c f r).2.1 = c)
    ∧ (∀ c a puts dels, (updateAssetGo c a puts dels).2.1 = c)
    ∧ (∀ c a puts dels, (createAssetGo c a puts dels).2.1 = c)
    ∧ (∀ c a r, (deleteAssetGo c a r).2.1 = c)
    ∧ (∀ c name r, ((createNewThemeGo c name r).2.1).filterMatch = c.filterMatch)
    ∧ (∀ c name r, c.themeID ≠ "" → ((createNewThemeGo c name r).2.1).themeID ≠ "") := by
  refine ⟨?_, ?_, ?_, ?_, ?_, ?_, updateAssetGo_client, updateAssetGo_client, ?_, ?_, ?_⟩
  · intro c r
    cases r with
    | fail e => rfl
    | resp status body =>
      simp only [getShopGo]
      split
      · rfl
      · split <;> rfl
  · intro c r
    cases r with
    | fail e => rfl
    | resp status body =>
      simp only [themesGo]
      split <;> rfl
  · intro c r
    by_cases hc : c.themeID = ""
    · simp [getInfoGo, hc]
    · cases r with
      | fail e => simp [getInfoGo, hc]
      | resp status body =>
        simp only [getInfoGo, if_neg hc]
        split
        · rfl
        · split <;> rfl
  · intro c r
    by_cases hc : c.themeID = ""
    · simp [publishThemeGo, hc]
    · cases r with
      | fail e => simp [publishThemeGo, hc]
      | resp status body =>
        simp only [publishThemeGo, if_neg hc]
        split
        · rfl
        · split
          · rfl
          · split <;> rfl
  · intro c r
    cases r with
    | fail e => rfl
    | resp status body =>
      simp only [getAllAssetsGo]
      split
      · rfl
      · split <;> rfl
  · intro c f r
    cases r with
    | fail e => rfl
    | resp status body =>
      simp only [getAssetGo]
      split
      · rfl
      · split <;> rfl
  · intro c a r
    cases r with
    | fail e => rfl
    | resp status body =>
      simp only [deleteAssetGo]
      split
      · rfl
      · split
        · rfl
        · split
          · rfl
          · split
            · rfl
            · split <;> rfl
  · intro c name r
    by_cases hname : name = ""
    · simp [createNewThemeGo, hname]
    · cases r with
      | fail e => simp [createNewThemeGo, hname]
      | resp status body =>
        simp only [createNewThemeGo, if_neg hname]
        split
        · rfl
        · split <;> rfl
  · intro c name r hc
    by_cases hname : name = ""
    · simpa [createNewThemeGo, hname] using hc
    · cases r with
      | fail e => simpa [createNewThemeGo, hname] using hc
      | resp status body =>
        simp only [createNewThemeGo, if_neg hname]
        split
        · simpa using hc
        · split
          · simpa using hc
          · simpa using int_repr_ne_empty _

/-- C9 witness: a bound client stays bound through a successful
CreateNewTheme. -/
theorem C9_witness :
    ((createNewThemeGo cBound "Foo" themeRespFoo).2.1).themeID ≠ "" :=
  C9_themeID_frame.2.2.2.2.2.2.2.2.2.2 cBound "Foo" themeRespFoo (by decide)

/-! Claim C1: the overwrite-conflict retry of UpdateAsset. -/

/-- The condition of theme_client.go:301-303 on one Put outcome: the body
decodes with a non-empty error map carrying an "asset" entry whose first
message contains the overwrite phrase, and the status is 422. -/
def isConflictResp (p : HttpResult AssetRespBody) : Bool :=
  match p with
  | .fail _ => false
  | .resp status body =>
    status == 422 &&
    match unmarshalResponse zeroAssetResp body with
    | .error _ => false
    | .ok r2 =>
      decide (r2.errors.length > 0) &&
      match r2.errors.lookup "asset" with
      | some (m0 :: _) => stringsContains m0 "Cannot overwrite generated asset"
      | _ => false

/-- One conflict step of UpdateAsset: a conflicting first response makes the
call issue the Put, then one Delete of the shadow key, then behave exactly as
a fresh UpdateAsset on the remaining responses, whose outcome it returns. -/
theorem updateAssetGo_conflict (c : Client) (a : Asset) (p : HttpResult AssetRespBody)
    (prest dels : List (HttpResult AssetRespBody)) (h : isConflictResp p = true) :
    updateAssetGo c a (p :: prest) dels =
      ((updateAssetGo c a prest dels.tail).1, (updateAssetGo c a prest dels.tail).2.1,
        Call.put (c.assetPath []) ::
          Call.delete (c.assetPath [("asset[key]", a.key ++ ".liquid")]) ::
            (updateAssetGo c a prest dels.tail).2.2) := by
  cases p with
  | fail e => simp [isConflictResp] at h
  | resp status body =>
    rw [isConflictResp, Bool.and_eq_true] at h
    obtain ⟨hst, h⟩ := h
    have hst2 : status = 422 := by simpa using hst
    subst hst2
    cases hu : unmarshalResponse zeroAssetResp body with
    | error e => rw [hu] at h; simp at h
    | ok r2 =>
      rw [hu, Bool.and_eq_true] at h
      obtain ⟨hlen, h⟩ := h
      have hlen2 : r2.errors.length > 0 := of_decide_eq_true hlen
      cases hl : r2.errors.lookup "asset" with
      | none => rw [hl] at h; simp at h
      | some msgs =>
        rw [hl] at h
        cases msgs with
        | nil => simp at h
        | cons m0 ms =>
          have hcont : stringsContains m0 "Cannot overwrite generated asset" = true := by
            simpa using h
          simp [updateAssetGo, hu, hl, hlen2, hcont, deleteAssetGo_calls]

/-- A non-conflicting first response makes UpdateAsset issue exactly one Put
and never touch the Delete oracle. -/
theorem updateAssetGo_nonconflict (c : Client) (a : Asset) (p : HttpResult AssetRespBody)
    (prest dels : List (HttpResult AssetRespBody)) (h : isConflictResp p = false) :
    (updateAssetGo c a (p :: prest) dels).2.2 = [Call.put (c.assetPath [])]
    ∧ ∀ dels', updateAssetGo c a (p :: prest) dels = updateAssetGo c a (p :: prest) dels' := by
  cases p with
  | fail e => exact ⟨rfl, fun dels' => rfl⟩
  | resp status body =>
    by_cases h404 : status = 404
    · constructor <;> simp [updateAssetGo, h404]
    · cases hu : unmarshalResponse zeroAssetResp body with
      | error e => constructor <;> simp [updateAssetGo, h404, hu]
      | ok r2 =>
        by_cases herr : r2.errors.length > 0
        · cases hl : r2.errors.lookup "asset" with
          | none => constructor <;> simp [updateAssetGo, h404, hu, herr, hl]
          | some msgs =>
            by_cases h422 : status = 422
            · subst h422
              cases msgs with
              | nil => constructor <;> simp [updateAssetGo, h404, hu, herr, hl]
              | cons m0 ms =>
                by_cases hcont : stringsContains m0 "Cannot overwrite generated asset" = true
                · exfalso
                  rw [isConflictResp] at h
                  simp [hu, hl, herr, hcont] at h
                · constructor <;> simp [updateAssetGo, h404, hu, herr, hl, hcont]
            · constructor <;> simp [updateAssetGo, h404, hu, herr, hl, h422]
        · constructor <;> simp [updateAssetGo, h404, hu, herr]

/-- C1 (corrected): a conflicting 422 response makes UpdateAsset issue one
Delete of key+".liquid" followed by one retried update, returning the retried
call's outcome whatever the delete oracle answers - provided the retried
call's response is not itself a conflict.  Without that proviso the claim
fails: the recursion of theme_client.go:306 is unbounded, and a second
conflicting response triggers a second delete and a third update (see the
counterexample). -/
theorem C1_conflict_retry (c : Client) (a : Asset) (p1 p2 : HttpResult AssetRespBody)
    (prest dels : List (HttpResult AssetRespBody))
    (h1 : isConflictResp p1 = true) (h2 : isConflictResp p2 = false) :
    (updateAssetGo c a (p1 :: p2 :: prest) dels).1 =
      (updateAssetGo c a (p2 :: prest) dels.tail).1
    ∧ (updateAssetGo c a (p1 :: p2 :: prest) dels).2.2 =
        Call.put (c.assetPath []) ::
          Call.delete (c.assetPath [("asset[key]", a.key ++ ".liquid")]) ::
            (updateAssetGo c a (p2 :: prest) dels.tail).2.2
    ∧ (updateAssetGo c a (p2 :: prest) dels.tail).2.2 = [Call.put (c.assetPath [])]
    ∧ ∀ dels', (updateAssetGo c a (p1 :: p2 :: prest) dels').1 =
        (updateAssetGo c a (p1 :: p2 :: prest) dels).1 := by
  have hc := updateAssetGo_conflict c a p1 (p2 :: prest) dels h1
  have hn := updateAssetGo_nonconflict c a p2 prest dels.tail h2
  refine ⟨by rw [hc], by rw [hc], hn.1, ?_⟩
  intro dels'
  have hc2 := updateAssetGo_conflict c a p1 (p2 :: prest) dels' h1
  rw [hc, hc2]
  show (updateAssetGo c a (p2 :: prest) dels'.tail).1 =
    (updateAssetGo c a (p2 :: prest) dels.tail).1
  exact congrArg Prod.fst ((hn.2 dels'.tail).symm)

/-- C1 witness: a conflicting response followed by a success produces exactly
the trace put, delete of the shadow, put, returns the second call's success,
and does so whatever the delete oracle answered. -/
theorem C1_witness :
    (updateAssetGo cNone ⟨"a.js"⟩ [pConflict, pOk] [.fail (.transport "delete blew up")]).1 =
      (updateAssetGo cNone ⟨"a.js"⟩ [pOk] []).1
    ∧ (updateAssetGo cNone ⟨"a.js"⟩ [pConflict, pOk] [.fail (.transport "delete blew up")]).2.2 =
        [Call.put "/admin/assets.json",
         Call.delete "/admin/assets.json?asset%5Bkey%5D=a.js.liquid",
         Call.put "/admin/assets.json"] := by
  have h := C1_conflict_retry cNone ⟨"a.js"⟩ pConflict pOk []
    [.fail (.transport "delete blew up")] rfl rfl
  refine ⟨h.1, ?_⟩
  rw [h.2.1, h.2.2.1]
  rfl

/-- C1 counterexample: when the retried call's response is again a conflict,
the code keeps retrying - two deletes and three updates for the claimed
"exactly one delete followed by exactly one retried update, and no further
retry". -/
theorem C1_counterexample :
    ((updateAssetGo cNone ⟨"a.js"⟩ [pConflict, pConflict, pOk] []).2.2.filter isDeleteCall).length = 2
    ∧ ((updateAssetGo cNone ⟨"a.js"⟩ [pConflict, pConflict, pOk] []).2.2.filter isPutCall).length = 3 :=
  ⟨rfl, rfl⟩

/-! Claim C3: the listing filter of GetAllAssets. -/

/-- Modelled from claim C3's wording, for comparison with the code: drop any
key that is immediately followed, in the list at hand, by itself plus
".liquid". -/
def claimDropShadowed : List String → List String
  | [] => []
  | [k] => [k]
  | k :: k2 :: rest =>
    if k2 == k ++ ".liquid" then claimDropShadowed (k2 :: rest)
    else k :: claimDropShadowed (k2 :: rest)

/-- Modelled from claim C3's wording: sort, apply the ignore filter first,
then drop the keys shadowed by an immediate ".liquid" successor in the
remaining candidate set. -/
def claimListAssetKeys (m : String → Bool) (keys : List String) : List String :=
  claimDropShadowed ((goSortKeys keys).filter fun k => !m k)

/-- The single pass of the code equals adjacency-dropping over the full
sorted list followed by the ignore filter (in that order: the adjacency test
reads the unfiltered successor). -/
theorem shadowScan_eq_filter_dropShadowed (m : String → Bool) :
    ∀ l : List String, shadowScan m l = (claimDropShadowed l).filter fun k => !m k
  | [] => rfl
  | [k] => by by_cases hk : m k <;> simp [shadowScan, claimDropShadowed, hk]
  | k :: k2 :: rest => by
    have ih := shadowScan_eq_filter_dropShadowed m (k2 :: rest)
    by_cases hliq : (k2 == k ++ ".liquid") = true
    · simp [shadowScan, claimDropShadowed, hliq, ih]
    · by_cases hk : m k
      · simp [shadowScan, claimDropShadowed, hliq, hk, ih]
      · simp [shadowScan, claimDropShadowed, hliq, hk, ih]

/-- C3 (corrected): GetAllAssets sorts the fetched keys ascending and keeps a
key when the ignore filter does not match it and the key is not immediately
followed, in the full sorted fetched list, by itself plus ".liquid" - that
is, adjacency-dropping over the sorted list before the ignore filter, not
over the remaining candidate set; the claim's concrete example is as stated.
The counterexample shows the two filter orders disagree. -/
theorem C3_listAssetKeys :
    (∀ (c : Client) (assets : List Asset),
      getAllAssetsGo c (.resp 200 (okBody ⟨assets⟩)) =
        (.ok ((claimDropShadowed (goSortKeys (assets.map Asset.key))).filter
            fun k => !c.filterMatch k),
          c, [Call.get (c.assetPath [("fields", "key")])]))
    ∧ getAllAssetsGo cNone (.resp 200 (okBody ⟨[⟨"a.js"⟩, ⟨"a.js.liquid"⟩, ⟨"b.css"⟩]⟩)) =
        (.ok ["a.js.liquid", "b.css"], cNone, [Call.get "/admin/assets.json?fields=key"]) := by
  constructor
  · intro c assets
    have hcomp : getAllAssetsGo c (.resp 200 (okBody ⟨assets⟩)) =
        (.ok (shadowScan c.filterMatch (goSortKeys (assets.map Asset.key))), c,
          [Call.get (c.assetPath [("fields", "key")])]) := rfl
    rw [hcomp, shadowScan_eq_filter_dropShadowed]
  · rfl

/-- C3 counterexample: with the ignore predicate matching exactly
"a.js.liquid" and fetched keys ["a.js", "a.js.liquid"], the code returns the
empty list (the adjacency test reads the unfiltered successor and drops
"a.js", then the filter drops "a.js.liquid"), while the claim's
filter-then-adjacency reading keeps "a.js". -/
theorem C3_counterexample :
    (getAllAssetsGo cIgnoreLiquid (.resp 200 (okBody ⟨[⟨"a.js"⟩, ⟨"a.js.liquid"⟩]⟩))).1 =
      .ok []
    ∧ claimListAssetKeys cIgnoreLiquid.filterMatch ["a.js", "a.js.liquid"] = ["a.js"] :=
  ⟨rfl, rfl⟩

/-! Order-theoretic facts about the byte-wise string comparison, needed for
claim C4. -/

theorem charLtB_iff : ∀ l1 l2 : List Char, charLtB l1 l2 = true ↔ l1 < l2
  | [], [] => by
    rw [charLtB]
    exact iff_of_false (by simp) (List.Lex.not_nil_right _ _)
  | [], b :: bs => by
    rw [charLtB]
    exact iff_of_true rfl (List.nil_lt_cons b bs)
  | a :: as, [] => by
    rw [charLtB]
    exact iff_of_false (by simp) (List.Lex.not_nil_right _ _)
  | a :: as, b :: bs => by
    rw [charLtB]
    by_cases hab : a < b
    · rw [if_pos hab]
      exact iff_of_true rfl (List.Lex.rel hab)
    · by_cases hba : b < a
      · rw [if_neg hab, if_pos hba]
        refine iff_of_false (by simp) ?_
        intro hlex
        cases (show List.Lex (· < ·) (a :: as) (b :: bs) from hlex) with
        | rel h => exact hab h
        | cons h => exact lt_irrefl _ hba
      · have heq : a = b := le_antisymm (not_lt.mp hba) (not_lt.mp hab)
        subst heq
        rw [if_neg hab, if_neg hba, charLtB_iff as bs]
        constructor
        · intro h
          exact List.Lex.cons h
        · intro hlex
          cases (show List.Lex (· < ·) (a :: as) (a :: bs) from hlex) with
          | rel h => exact absurd h (lt_irrefl a)
          | cons h => exact h

theorem goStrLt_iff (a b : String) : goStrLt a b = true ↔ a < b := by
  rw [String.lt_iff_toList_lt]
  exact charLtB_iff a.data b.data

theorem goStrLe_iff (a b : String) : goStrLe a b = true ↔ a ≤ b := by
  constructor
  · intro hle
    have hf : goStrLt b a = false := by simpa [goStrLe] using hle
    refine not_lt.mp fun hba => ?_
    rw [(goStrLt_iff b a).mpr hba] at hf
    cases hf
  · intro hle
    have hf : goStrLt b a = false := by
      cases hgs : goStrLt b a
      · rfl
      · exact absurd ((goStrLt_iff b a).mp hgs) (not_lt.mpr hle)
    simp [goStrLe, hf]

/-! Sortedness and permutation facts for the model's sort. -/

theorem orderedInsertB_perm {α : Type} (le : α → α → Bool) (a : α) :
    ∀ l : List α, (orderedInsertB le a l).Perm (a :: l)
  | [] => List.Perm.refl _
  | b :: l => by
    rw [orderedInsertB]
    split
    · exact List.Perm.refl _
    · exact ((orderedInsertB_perm le a l).cons b).trans (List.Perm.swap a b l)

theorem insertionSortB_perm {α : Type} (le : α → α → Bool) :
    ∀ l : List α, (insertionSortB le l).Perm l
  | [] => List.Perm.refl _
  | a :: l => (orderedInsertB_perm le a _).trans ((insertionSortB_perm le l).cons a)

theorem orderedInsertB_pairwise (a : String) :
    ∀ l : List String, l.Pairwise (· ≤ ·) →
      (orderedInsertB goStrLe a l).Pairwise (· ≤ ·)
  | [], _ => by
    rw [orderedInsertB]
    exact List.pairwise_cons.mpr ⟨fun x hx => absurd hx (List.not_mem_nil x), List.Pairwise.nil⟩
  | b :: l, hp => by
    rw [orderedInsertB]
    split
    · rename_i hab
      have hab2 : a ≤ b := (goStrLe_iff a b).mp hab
      refine List.pairwise_cons.mpr ⟨?_, hp⟩
      intro x hx
      rcases List.mem_cons.mp hx with rfl | hx
      · exact hab2
      · exact le_trans hab2 ((List.pairwise_cons.mp hp).1 x hx)
    · rename_i hab
      have hab2 : goStrLe a b = false := by
        cases hgs : goStrLe a b
        · rfl
        · exact absurd hgs hab
      have hlt : goStrLt b a = true := by
        cases hgs : goStrLt b a
        · rw [goStrLe, hgs] at hab2
          cases hab2
        · rfl
      have hba : b ≤ a := le_of_lt ((goStrLt_iff b a).mp hlt)
      refine List.pairwise_cons.mpr
        ⟨?_, orderedInsertB_pairwise a l (List.pairwise_cons.mp hp).2⟩
      intro x hx
      rcases List.mem_cons.mp ((orderedInsertB_perm goStrLe a l).mem_iff.mp hx) with rfl | hx2
      · exact hba
      · exact (List.pairwise_cons.mp hp).1 x hx2

theorem insertionSortB_sorted :
    ∀ l : List String, (insertionSortB goStrLe l).Pairwise (· ≤ ·)
  | [] => List.Pairwise.nil
  | a :: l => orderedInsertB_pairwise a _ (insertionSortB_sorted l)

theorem goSortKeys_perm (keys : List String) : (goSortKeys keys).Perm keys :=
  insertionSortB_perm goStrLe keys

theorem goSortKeys_pairwise_lt {keys : List String} (h : keys.Nodup) :
    (goSortKeys keys).Pairwise (· < ·) := by
  have hle := insertionSortB_sorted keys
  have hnd : (goSortKeys keys).Nodup := (goSortKeys_perm keys).nodup_iff.mpr h
  exact (hle.and hnd).imp fun hab => lt_of_le_of_ne hab.1 hab.2

/-! String order facts for claim C4. -/

theorem list_lex_append : ∀ (l : List Char) (c : Char) (cs : List Char), l < l ++ c :: cs
  | [], c, cs => List.nil_lt_cons c cs
  | a :: l, c, cs =>
    show List.Lex (· < ·) (a :: l) (a :: (l ++ c :: cs)) from
      List.Lex.cons (list_lex_append l c cs)

theorem str_lt_append (s t : String) (h : t ≠ "") : s < s ++ t := by
  rw [String.lt_iff_toList_lt]
  have happ : (s ++ t).toList = s.toList ++ t.toList := String.data_append s t
  rw [happ]
  have hne : t.toList ≠ [] := by
    intro hx
    apply h
    cases t with
    | mk d =>
      cases d with
      | nil => rfl
      | cons c cs => cases hx
  cases hd : t.toList with
  | nil => exact absurd hd hne
  | cons c cs => exact list_lex_append s.toList c cs

theorem str_lt_append_liquid (K : String) : K < K ++ ".liquid" :=
  str_lt_append K ".liquid" (by decide)

/-! Claim C4: the shadow-pair invariant of the listing. -/

theorem shadowScan_subset (m : String → Bool) :
    ∀ (l : List String) (k : String), k ∈ shadowScan m l → k ∈ l
  | [], k, h => by simp [shadowScan] at h
  | [k0], k, h => by
    by_cases h0 : m k0
    · simp [shadowScan, h0] at h
    · simp [shadowScan, h0] at h
      simp [h]
  | k0 :: k1 :: rest, k, h => by
    by_cases hc : (!m k0 && !(k1 == k0 ++ ".liquid")) = true
    · rw [shadowScan, if_pos hc] at h
      rcases List.mem_cons.mp h with rfl | h2
      · exact List.mem_cons_self _ _
      · exact List.mem_cons_of_mem _ (shadowScan_subset m (k1 :: rest) k h2)
    · rw [shadowScan, if_neg hc] at h
      exact List.mem_cons_of_mem _ (shadowScan_subset m (k1 :: rest) k h)

/-- Core of claim C4: over a strictly sorted key list in which no key lies
strictly between K and K+".liquid", the scan never keeps both. -/
theorem shadowScan_no_pair (m : String → Bool) (K : String) :
    ∀ l : List String, l.Pairwise (· < ·) →
      (∀ w ∈ l, ¬(K < w ∧ w < K ++ ".liquid")) →
      K ∈ shadowScan m l → (K ++ ".liquid") ∈ shadowScan m l → False
  | [], _, _, hK, _ => by simp [shadowScan] at hK
  | [k], _, _, hK, hKL => by
    by_cases h0 : m k
    · simp [shadowScan, h0] at hK
    · simp [shadowScan, h0] at hK hKL
      have : K = K ++ ".liquid" := hK.trans hKL.symm
      exact absurd this (ne_of_lt (str_lt_append_liquid K))
  | k0 :: k1 :: rest, hp, hbet, hK, hKL => by
    have hp1 := List.pairwise_cons.mp hp
    have hbet2 : ∀ w ∈ k1 :: rest, ¬(K < w ∧ w < K ++ ".liquid") :=
      fun w hw => hbet w (List.mem_cons_of_mem _ hw)
    by_cases hc : (!m k0 && !(k1 == k0 ++ ".liquid")) = true
    · rw [shadowScan, if_pos hc] at hK hKL
      rcases List.mem_cons.mp hK with rfl | hK2
      · rcases List.mem_cons.mp hKL with hKL1 | hKL2
        · exact absurd hKL1.symm (ne_of_lt (str_lt_append_liquid K))
        · have hKLmem := shadowScan_subset m (k1 :: rest) _ hKL2
          have hk1ne : k1 ≠ K ++ ".liquid" := by
            intro hx
            rw [hx] at hc
            simp at hc
          rcases List.mem_cons.mp hKLmem with hx | hx
          · exact hk1ne hx.symm
          · have h1 : K < k1 := hp1.1 k1 (List.mem_cons_self _ _)
            have h2 : k1 < K ++ ".liquid" := (List.pairwise_cons.mp hp1.2).1 _ hx
            exact hbet k1 (List.mem_cons_of_mem _ (List.mem_cons_self _ _)) ⟨h1, h2⟩
      · rcases List.mem_cons.mp hKL with hKL1 | hKL2
        · have hKmem := shadowScan_subset m (k1 :: rest) _ hK2
          have h1 : k0 < K := hp1.1 K hKmem
          rw [← hKL1] at h1
          exact absurd (str_lt_append_liquid K) (lt_asymm h1)
        · exact shadowScan_no_pair m K (k1 :: rest) hp1.2 hbet2 hK2 hKL2
    · rw [shadowScan, if_neg hc] at hK hKL
      exact shadowScan_no_pair m K (k1 :: rest) hp1.2 hbet2 hK hKL

/-- C4 (corrected): the returned listing never contains both K and
K+".liquid" provided the fetched keys are pairwise distinct and no fetched
key sorts strictly between K and K+".liquid".  Without that proviso the claim
fails: a key between the two (here "a.a") keeps the pair non-adjacent after
sorting and both survive, as the counterexample shows. -/
theorem C4_no_shadow_pair (c : Client) (assets : List Asset) (K : String) (L : List String)
    (hnd : (assets.map Asset.key).Nodup)
    (hbet : ∀ w ∈ assets.map Asset.key, ¬(K < w ∧ w < K ++ ".liquid"))
    (hres : (getAllAssetsGo c (.resp 200 (okBody ⟨assets⟩))).1 = Except.ok L) :
    ¬(K ∈ L ∧ (K ++ ".liquid") ∈ L) := by
  have hcomp : (getAllAssetsGo c (.resp 200 (okBody ⟨assets⟩))).1 =
      Except.ok (shadowScan c.filterMatch (goSortKeys (assets.map Asset.key))) := rfl
  rw [hcomp] at hres
  obtain rfl : shadowScan c.filterMatch (goSortKeys (assets.map Asset.key)) = L :=
    Except.ok.inj hres
  rintro ⟨hK, hKL⟩
  exact shadowScan_no_pair c.filterMatch K (goSortKeys (assets.map Asset.key))
    (goSortKeys_pairwise_lt hnd)
    (fun w hw => hbet w ((goSortKeys_perm _).mem_iff.mp hw)) hK hKL

/-- C4 witness: for the adjacent pair "a.js"/"a.js.liquid" (distinct keys,
nothing between them) the returned listing keeps only the liquid variant. -/
theorem C4_witness :
    ¬("a.js" ∈ (["a.js.liquid"] : List String)
      ∧ "a.js" ++ ".liquid" ∈ (["a.js.liquid"] : List String)) :=
  C4_no_shadow_pair cNone [⟨"a.js"⟩, ⟨"a.js.liquid"⟩] "a.js" ["a.js.liquid"]
    (by decide)
    (by
      intro w hw
      simp at hw
      rcases hw with rfl | rfl
      · rintro ⟨h1, _⟩
        exact lt_irrefl _ h1
      · rintro ⟨_, h2⟩
        exact lt_irrefl "a.js.liquid" (show "a.js.liquid" < "a.js.liquid" from h2))
    rfl

/-- C4 counterexample: with fetched keys ["a", "a.a", "a.liquid"] the key
"a.a" sorts strictly between "a" and "a.liquid", the pair is not adjacent,
and the returned listing contains both "a" and "a" ++ ".liquid". -/
theorem C4_counterexample :
    (getAllAssetsGo cNone (.resp 200 (okBody ⟨[⟨"a"⟩, ⟨"a.a"⟩, ⟨"a.liquid"⟩]⟩))).1 =
      .ok ["a", "a.a", "a.liquid"]
    ∧ "a" ∈ (["a", "a.a", "a.liquid"] : List String)
    ∧ "a" ++ ".liquid" ∈ (["a", "a.a", "a.liquid"] : List String) :=
  ⟨rfl, by decide, by decide⟩

end ThemeKit
